import Mathlib

/-!
Verification of the channel packer in src/tools/pack_maskmap.py.

The script is embedded shallowly: Pillow mode-L images become rasters of
8-bit samples, the filesystem becomes a finite association of paths to the
grayscale rasters decoding yields, fallible loading becomes an
Except-valued function, and the one float argument (default smoothness)
is modelled over the exact rationals with Python's half-to-even rounding.
Writing the PNG is modelled as an effect trace, since the claims only
concern which directories are created and what is written where.
-/

namespace PackMaskmap

/-- An 8-bit single-channel raster, the model of a Pillow mode-L image.
`pix x y` is the sample at column `x`, row `y`; the sample function is
totalised over all coordinates. -/
structure Img where
  width : Nat
  height : Nat
  pix : Nat → Nat → Fin 256

/-- Model of Pillow `Image.new("L", size, color)`: a uniform raster of the
given size. -/
def Image_new (size : Nat × Nat) (color : Fin 256) : Img :=
  ⟨size.1, size.2, fun _ _ => color⟩

/-- Model of Pillow `Image.eval(img, fn)` on a mode-L image: apply `fn` to
every sample, keeping the dimensions. -/
def Image_evalFn (fn : Fin 256 → Fin 256) (img : Img) : Img :=
  ⟨img.width, img.height, fun x y => fn (img.pix x y)⟩

/-- Model of Pillow `img.resize(size, resample=Image.BICUBIC)`. The output
dimensions are the target's, per the library's contract; the sample values
stand in for the library's bicubic interpolation, which no claim of this
development constrains beyond the output dimensions. -/
def Image_resizeTo (img : Img) (size : Nat × Nat) : Img :=
  ⟨size.1, size.2, fun x y => img.pix (x * img.width / size.1) (y * img.height / size.2)⟩

/-- The visible filesystem: a finite association of file paths to the 8-bit
grayscale raster that decoding the file and converting it to mode L yields.
Decoding and the colour-to-luminance reduction are the image library's
work, not this repository's, so the model takes the decoded grayscale
raster as given. -/
abbrev FS := List (String × Img)

/-- Model of `os.path.isfile` combined with `Image.open`: a path names a
readable image file exactly when it is nonempty and present in the
association list (`os.path.isfile` on the empty string is false on every
platform, and directories are not image files). -/
def statFile (fs : FS) (p : String) : Option Img :=
  if p == "" then none else List.lookup p fs

/-- Embedding of `read_grayscale` (pack_maskmap.py lines 60-90): with no
path, a uniform raster at the fallback value sized to the target (or
1024x1024); with a path, a missing file raises FileNotFoundError, and an
existing file is decoded to mode L and resized with bicubic resampling
exactly when its dimensions differ from the target. -/
def read_grayscale (fs : FS) (path : Option String) (fallback_value : Fin 256)
    (target_size : Option (Nat × Nat)) : Except String Img :=
  match path with
  | none =>
      let ts := target_size.getD (1024, 1024)
      Except.ok (Image_new ts fallback_value)
  | some p =>
      match statFile fs p with
      | none => Except.error ("Input image not found: " ++ p)
      | some src =>
          let img_l := src
          Except.ok
            (match target_size with
             | none => img_l
             | some ts =>
                 if img_l.width == ts.1 && img_l.height == ts.2 then img_l
                 else Image_resizeTo img_l ts)

/-- Embedding of `determine_target_size` (lines 93-102): the dimensions of
the first truthy, existing path, else 1024x1024. -/
def determine_target_size (fs : FS) : List String → Nat × Nat
  | [] => (1024, 1024)
  | p :: rest =>
      match statFile fs p with
      | some im => (im.width, im.height)
      | none => determine_target_size fs rest

/-- Embedding of `ensure_uint8` (lines 105-109). Every raster in this model
is already mode L, so the conversion is the identity, as `convert("L")` is
on a mode-L Pillow image. -/
def ensure_uint8 (image_l : Img) : Img :=
  image_l

/-- Embedding of `invert_l` (lines 112-114): `Image.eval` with the function
sending each sample `v` to `255 - v`. -/
def invert_l (image_l : Img) : Img :=
  Image_evalFn (fun v => 255 - v) (ensure_uint8 image_l)

/-- A 4-component (RGBA) raster, the model of the merged Pillow image. -/
structure RGBA where
  width : Nat
  height : Nat
  r : Nat → Nat → Fin 256
  g : Nat → Nat → Fin 256
  b : Nat → Nat → Fin 256
  a : Nat → Nat → Fin 256

/-- Embedding of `compose_rgba` (lines 117-122): `Image.merge("RGBA", ...)`
interleaves the four bands and raises ValueError when their sizes do not
all match. -/
def compose_rgba (r : Img) (g : Img) (b : Img) (a : Img) : Except String RGBA :=
  let r8 := ensure_uint8 r
  let g8 := ensure_uint8 g
  let b8 := ensure_uint8 b
  let a8 := ensure_uint8 a
  if r8.width == g8.width && r8.width == b8.width && r8.width == a8.width &&
      r8.height == g8.height && r8.height == b8.height && r8.height == a8.height then
    Except.ok ⟨r8.width, r8.height, r8.pix, g8.pix, b8.pix, a8.pix⟩
  else
    Except.error "ValueError: images do not match"

/-- Model of posix `os.path.dirname`: everything up to the last slash, with
trailing slashes stripped unless the head is all slashes. -/
def allSlash : List Char → Bool
  | [] => true
  | c :: cs => c == '/' && allSlash cs

/-- Helper for `dirname`: drop trailing slash characters. -/
def dropTrailingSlashes (l : List Char) : List Char :=
  (l.reverse.dropWhile (fun c => c == '/')).reverse

/-- Helper for `dirname`: the prefix up to and including the last slash,
empty when there is no slash. -/
def headToLastSlash (l : List Char) : List Char :=
  (l.reverse.dropWhile (fun c => c != '/')).reverse

/-- Model of `os.path.dirname` on posix paths. -/
def dirname (p : String) : String :=
  let head := headToLastSlash p.data
  if head.isEmpty || allSlash head then String.mk head
  else String.mk (dropTrailingSlashes head)

/-- Model of `os.makedirs(d, exist_ok=True)`. With `exist_ok=True` the call
succeeds whether or not the directories already exist, but
`os.makedirs("")` raises FileNotFoundError (`os.mkdir("")` fails and the
empty string is not a directory, so `exist_ok` does not suppress it).
Permission failures and collisions with regular files are outside the
modelled filesystem. -/
def os_makedirs (d : String) : Except String Unit :=
  if d == "" then
    Except.error "FileNotFoundError: [Errno 2] No such file or directory: "
  else
    Except.ok ()

/-- An observable filesystem effect of a run. -/
inductive Effect where
  | makedirs : String → Effect
  | writePNG : String → RGBA → Effect

/-- Embedding of `save_png` (lines 125-127): create the output path's
parent directories, then encode the raster as a PNG at compress level 6.
The encoding itself is the library's; the model records the write. -/
def save_png (img : RGBA) (out_path : String) : Except String (List Effect) :=
  match os_makedirs (dirname out_path) with
  | Except.error e => Except.error e
  | Except.ok _ => Except.ok [Effect.makedirs (dirname out_path), Effect.writePNG out_path img]

/-- The three subcommands of the argument parser (lines 130-152). -/
inductive Mode where
  | urpTerrain
  | hdrp
  | urpRA
deriving DecidableEq

/-- The parsed command line. Flags the mode's parser does not define are
`none`; `argparse` stores `none` for an omitted optional flag and the flag's
string argument otherwise. `default_smoothness` is the one float argument,
modelled over the exact rationals. -/
structure Args where
  mode : Mode
  metallic : Option String
  occlusion : Option String
  height : Option String
  detail : Option String
  smoothness : Option String
  roughness : Option String
  invert_roughness : Bool
  default_smoothness : ℚ
  out : String

/-- Truthiness of an optional string, as Python evaluates `if p:`. -/
def truthy : Option String → Bool
  | none => false
  | some s => s != ""

/-- The candidate-path contribution of one optional flag, Python
`if p: candidate_paths.append(p)`: nothing when the flag is absent or
empty, the path itself otherwise. -/
def optPath : Option String → List String
  | none => []
  | some p => if p == "" then [] else [p]

/-- The candidate-path collection of `main` (lines 182-187): for each
attribute in the fixed order metallic, occlusion, height, detail,
smoothness, roughness, append its truthy value when the mode's parser
defines the flag (`hasattr`): the urp-ra parser defines no occlusion,
height or detail flag, urp-terrain defines no detail flag, and hdrp
defines no height flag. -/
def candidate_paths (args : Args) : List String :=
  optPath args.metallic
    ++ (match args.mode with
        | Mode.urpRA => []
        | _ => optPath args.occlusion)
    ++ (match args.mode with
        | Mode.urpTerrain => optPath args.height
        | _ => [])
    ++ (match args.mode with
        | Mode.hdrp => optPath args.detail
        | _ => [])
    ++ optPath args.smoothness
    ++ optPath args.roughness

/-- Strict comparison of exact rationals through the kernel-computable
`Rat.blt`, so that it evaluates definitionally on concrete inputs. -/
def ratLt (a b : ℚ) : Bool :=
  Rat.blt a b

/-- Multiplication of an exact rational by a natural number, written with
the normalising constructor `mkRat` so that it evaluates definitionally. -/
def ratMulNat (q : ℚ) (n : Nat) : ℚ :=
  mkRat (q.num * n) q.den

/-- Subtraction of an integer from an exact rational, written with the
normalising constructor `mkRat` so that it evaluates definitionally. -/
def ratSubInt (q : ℚ) (z : ℤ) : ℚ :=
  mkRat (q.num - z * q.den) q.den

/-- The rational one half, the comparison point of half-to-even rounding. -/
def oneHalf : ℚ :=
  mkRat 1 2

/-- Embedding of `clamp01` (lines 173-174), Python `max(0.0, min(1.0, v))`
on the exact rational model of the float argument: values below 0 clamp to
0, values above 1 clamp to 1. -/
def clamp01 (value : ℚ) : ℚ :=
  if ratLt value 0 then 0 else if ratLt 1 value then 1 else value

/-- Python's built-in `round` (half-to-even) on an exact rational. -/
def python_round (x : ℚ) : ℤ :=
  let f : ℤ := Rat.floor x
  let frac : ℚ := ratSubInt x f
  if ratLt frac oneHalf then f
  else if ratLt oneHalf frac then f + 1
  else if f % 2 = 0 then f else f + 1

/-- Truncation of a nonnegative integer to the byte Pillow stores for a
mode-L fill colour. -/
def toByte (n : Nat) : Fin 256 :=
  ⟨n % 256, Nat.mod_lt n (by decide)⟩

/-- The constant `int(round(clamp01(args.default_smoothness) * 255))` used
by `resolve_smoothness` (lines 254 and 262). -/
def default_smoothness_val (d : ℚ) : Fin 256 :=
  toByte (python_round (ratMulNat (clamp01 d) 255)).toNat

/-- Embedding of `resolve_smoothness` (lines 251-263): a truthy smoothness
path is loaded with the default-smoothness constant as fallback; else a
truthy roughness path is loaded (fallback 0) and inverted exactly when
`--invert-roughness` was passed; else a uniform raster at the
default-smoothness constant. -/
def resolve_smoothness (fs : FS) (args : Args) (target_size : Nat × Nat) : Except String Img :=
  if truthy args.smoothness then
    read_grayscale fs args.smoothness (default_smoothness_val args.default_smoothness)
      (some target_size)
  else if truthy args.roughness then
    match read_grayscale fs args.roughness 0 (some target_size) with
    | Except.error e => Except.error e
    | Except.ok rough_l =>
        Except.ok (if args.invert_roughness then invert_l rough_l else rough_l)
  else
    Except.ok (Image_new target_size (default_smoothness_val args.default_smoothness))

/-- The observable outcome of a successful run: the output path, the target
size, the composed image, and the filesystem effects in order. -/
structure RunResult where
  out_path : String
  size : Nat × Nat
  image : RGBA
  effects : List Effect

/-- The common tail of each mode block of `main`: compose the four bands
and save the PNG. -/
def packAndSave (args : Args) (ts : Nat × Nat) (c1 : Img) (c2 : Img) (c3 : Img)
    (c4 : Img) : Except String RunResult :=
  match compose_rgba c1 c2 c3 c4 with
  | Except.error e => Except.error e
  | Except.ok out_img =>
      match save_png out_img args.out with
      | Except.error e => Except.error e
      | Except.ok effs => Except.ok ⟨args.out, ts, out_img, effs⟩

/-- Embedding of `main` (lines 177-239): collect the candidate size
sources, determine the target size, and run the selected mode's block. An
`Except.error` models the uncaught Python exception that aborts the
process with a nonzero status before anything is written; `print_summary`
writes only to standard output and is not modelled. -/
def main (fs : FS) (args : Args) : Except String RunResult :=
  let target_size := determine_target_size fs (candidate_paths args)
  match args.mode with
  | Mode.urpRA =>
      match read_grayscale fs args.metallic 0 (some target_size) with
      | Except.error e => Except.error e
      | Except.ok metallic_l =>
          match resolve_smoothness fs args target_size with
          | Except.error e => Except.error e
          | Except.ok smooth_l =>
              packAndSave args target_size metallic_l (Image_new target_size 0)
                (Image_new target_size 0) smooth_l
  | Mode.urpTerrain =>
      match read_grayscale fs args.metallic 0 (some target_size) with
      | Except.error e => Except.error e
      | Except.ok metallic_l =>
          match read_grayscale fs args.occlusion 255 (some target_size) with
          | Except.error e => Except.error e
          | Except.ok ao_l =>
              match read_grayscale fs args.height 128 (some target_size) with
              | Except.error e => Except.error e
              | Except.ok height_l =>
                  match resolve_smoothness fs args target_size with
                  | Except.error e => Except.error e
                  | Except.ok smooth_l =>
                      packAndSave args target_size metallic_l ao_l height_l smooth_l
  | Mode.hdrp =>
      match read_grayscale fs args.metallic 0 (some target_size) with
      | Except.error e => Except.error e
      | Except.ok metallic_l =>
          match read_grayscale fs args.occlusion 255 (some target_size) with
          | Except.error e => Except.error e
          | Except.ok ao_l =>
              match read_grayscale fs args.detail 255 (some target_size) with
              | Except.error e => Except.error e
              | Except.ok detail_l =>
                  match resolve_smoothness fs args target_size with
                  | Except.error e => Except.error e
                  | Except.ok smooth_l =>
                      packAndSave args target_size metallic_l ao_l detail_l smooth_l

/-- Abbreviation for the target size `main` computes for an invocation. -/
def tsz (fs : FS) (args : Args) : Nat × Nat :=
  determine_target_size fs (candidate_paths args)

/-- The second composed band, by mode: occlusion for urp-terrain and hdrp,
a constant-zero raster for urp-ra. -/
def channel2 (fs : FS) (args : Args) : Except String Img :=
  match args.mode with
  | Mode.urpRA => Except.ok (Image_new (tsz fs args) 0)
  | _ => read_grayscale fs args.occlusion 255 (some (tsz fs args))

/-- The third composed band, by mode: height for urp-terrain, detail for
hdrp, a constant-zero raster for urp-ra. -/
def channel3 (fs : FS) (args : Args) : Except String Img :=
  match args.mode with
  | Mode.urpRA => Except.ok (Image_new (tsz fs args) 0)
  | Mode.urpTerrain => read_grayscale fs args.height 128 (some (tsz fs args))
  | Mode.hdrp => read_grayscale fs args.detail 255 (some (tsz fs args))

/-- An invocation identical to `args` except for the roughness path and
the invert flag. -/
def withRI (args : Args) (r : Option String) (i : Bool) : Args :=
  ⟨args.mode, args.metallic, args.occlusion, args.height, args.detail,
    args.smoothness, r, i, args.default_smoothness, args.out⟩

/-- Loading with no path yields the uniform fallback raster at the target
size. -/
lemma read_grayscale_none (fs : FS) (fb : Fin 256) (ts : Nat × Nat) :
    read_grayscale fs none fb (some ts) = Except.ok (Image_new ts fb) := rfl

/-- Loading a path that does not name a file raises FileNotFoundError. -/
lemma read_grayscale_missing (fs : FS) (p : String) (fb : Fin 256)
    (t : Option (Nat × Nat)) (hst : statFile fs p = none) :
    read_grayscale fs (some p) fb t = Except.error ("Input image not found: " ++ p) := by
  simp [read_grayscale, hst]

/-- Loading an existing path yields the decoded raster, resized exactly
when its dimensions differ from the target. -/
lemma read_grayscale_found (fs : FS) (p : String) (fb : Fin 256)
    (ts : Nat × Nat) (src : Img) (hst : statFile fs p = some src) :
    read_grayscale fs (some p) fb (some ts) =
      Except.ok (if src.width == ts.1 && src.height == ts.2 then src
        else Image_resizeTo src ts) := by
  simp [read_grayscale, hst]

/-- A successful load with a path implies the path names a file. -/
lemma read_grayscale_ok_exists {fs : FS} {p : String} {fb : Fin 256}
    {t : Option (Nat × Nat)} {img : Img}
    (h : read_grayscale fs (some p) fb t = Except.ok img) :
    ∃ src, statFile fs p = some src := by
  cases hst : statFile fs p with
  | none => rw [read_grayscale_missing fs p fb t hst] at h; injection h
  | some src => exact ⟨src, rfl⟩

/-- A successful load against a target size has the target dimensions. -/
lemma read_grayscale_ok_size {fs : FS} {path : Option String} {fb : Fin 256}
    {ts : Nat × Nat} {img : Img}
    (h : read_grayscale fs path fb (some ts) = Except.ok img) :
    img.width = ts.1 ∧ img.height = ts.2 := by
  cases path with
  | none =>
      rw [read_grayscale_none] at h
      injection h with h
      subst h
      exact ⟨rfl, rfl⟩
  | some p =>
      cases hst : statFile fs p with
      | none => rw [read_grayscale_missing fs p fb (some ts) hst] at h; injection h
      | some src =>
          rw [read_grayscale_found fs p fb ts src hst] at h
          injection h with h
          subst h
          split
          case isTrue hcond =>
              have hw := (Bool.and_eq_true _ _).mp hcond
              exact ⟨beq_iff_eq.mp hw.1, beq_iff_eq.mp hw.2⟩
          case isFalse hcond => exact ⟨rfl, rfl⟩

/-- Inverting preserves dimensions. -/
lemma invert_l_size (img : Img) :
    (invert_l img).width = img.width ∧ (invert_l img).height = img.height :=
  ⟨rfl, rfl⟩

/-- The resolved smoothness raster has the target dimensions. -/
lemma resolve_smoothness_ok_size {fs : FS} {args : Args} {ts : Nat × Nat}
    {img : Img} (h : resolve_smoothness fs args ts = Except.ok img) :
    img.width = ts.1 ∧ img.height = ts.2 := by
  unfold resolve_smoothness at h
  split at h
  · exact read_grayscale_ok_size h
  · split at h
    · cases hr : read_grayscale fs args.roughness 0 (some ts) with
      | error e => rw [hr] at h; injection h
      | ok rough =>
          rw [hr] at h
          injection h with h
          subst h
          split
          · exact ⟨(read_grayscale_ok_size hr).1, (read_grayscale_ok_size hr).2⟩
          · exact ⟨(read_grayscale_ok_size hr).1, (read_grayscale_ok_size hr).2⟩
    · injection h with h
      subst h
      exact ⟨rfl, rfl⟩

/-- With a truthy smoothness path, the resolver is exactly the smoothness
load, whatever the roughness path and invert flag are. -/
lemma resolve_smoothness_of_truthy {fs : FS} {args : Args} {ts : Nat × Nat}
    (hs : truthy args.smoothness = true) :
    resolve_smoothness fs args ts =
      read_grayscale fs args.smoothness (default_smoothness_val args.default_smoothness)
        (some ts) := by
  unfold resolve_smoothness
  rw [hs]
  simp

/-- Composition of four equally-sized rasters succeeds and interleaves the
bands in order. -/
lemma compose_rgba_of_sizes {r g b a : Img}
    (hwg : r.width = g.width) (hwb : r.width = b.width) (hwa : r.width = a.width)
    (hhg : r.height = g.height) (hhb : r.height = b.height) (hha : r.height = a.height) :
    compose_rgba r g b a = Except.ok ⟨r.width, r.height, r.pix, g.pix, b.pix, a.pix⟩ := by
  have hc : (r.width == g.width && r.width == b.width && r.width == a.width &&
      r.height == g.height && r.height == b.height && r.height == a.height) = true := by
    rw [← hwg, ← hwb, ← hwa, ← hhg, ← hhb, ← hha]
    simp
  simp only [compose_rgba, ensure_uint8]
  rw [if_pos hc]

/-- A successful composition interleaves the bands in order and takes the
first band's dimensions. -/
lemma compose_rgba_ok_inv {r g b a : Img} {out : RGBA}
    (h : compose_rgba r g b a = Except.ok out) :
    out = ⟨r.width, r.height, r.pix, g.pix, b.pix, a.pix⟩ := by
  simp only [compose_rgba, ensure_uint8] at h
  split at h
  · injection h with h
    exact h.symm
  · injection h

/-- Saving succeeds exactly when the output path has a nonempty parent
directory part, and then records the directory creation followed by the
write. -/
lemma save_png_ok_inv {img : RGBA} {out_path : String} {effs : List Effect}
    (h : save_png img out_path = Except.ok effs) :
    dirname out_path ≠ "" ∧
      effs = [Effect.makedirs (dirname out_path), Effect.writePNG out_path img] := by
  unfold save_png at h
  split at h
  · injection h
  · next heq =>
      constructor
      · intro hd
        unfold os_makedirs at heq
        rw [hd] at heq
        simp at heq
      · injection h with h
        exact h.symm

/-- The candidate paths contributed by the flags before the smoothness and
roughness slots, in attribute order. -/
def basePaths (args : Args) : List String :=
  optPath args.metallic
    ++ (match args.mode with
        | Mode.urpRA => []
        | _ => optPath args.occlusion)
    ++ (match args.mode with
        | Mode.urpTerrain => optPath args.height
        | _ => [])
    ++ (match args.mode with
        | Mode.hdrp => optPath args.detail
        | _ => [])

/-- The candidate-path list splits into the base flags, the smoothness
slot, and the roughness slot, in that order. -/
lemma candidate_paths_decomp (args : Args) :
    candidate_paths args =
      basePaths args ++ optPath args.smoothness ++ optPath args.roughness := by
  unfold candidate_paths basePaths
  simp [List.append_assoc]

/-- Changing only the roughness path and invert flag changes only the
roughness slot of the candidate list. -/
lemma candidate_paths_withRI (args : Args) (r : Option String) (i : Bool) :
    candidate_paths (withRI args r i) =
      basePaths args ++ optPath args.smoothness ++ optPath r := by
  rw [candidate_paths_decomp]
  rfl

/-- A truthy optional path is a nonempty string. -/
lemma truthy_iff (o : Option String) :
    truthy o = true ↔ ∃ s, o = some s ∧ (s == "") = false := by
  cases o with
  | none => simp [truthy]
  | some s =>
      simp only [truthy]
      constructor
      · intro h
        exact ⟨s, rfl, by simpa using h⟩
      · rintro ⟨t, ht, hne⟩
        injection ht with ht
        subst ht
        simpa using hne

/-- A truthy path contributes itself to the candidate list. -/
lemma optPath_of_truthy {o : Option String} {s : String}
    (ho : o = some s) (hs : (s == "") = false) : optPath o = [s] := by
  subst ho
  simp [optPath, hs]

/-- Characterisation of the target-size scan: the dimensions of the first
path in the list that names a file, else the 1024x1024 default. -/
lemma determine_target_size_spec (fs : FS) (paths : List String) :
    determine_target_size fs paths =
      match paths.find? (fun p => (statFile fs p).isSome) with
      | some p =>
          match statFile fs p with
          | some im => (im.width, im.height)
          | none => (1024, 1024)
      | none => (1024, 1024) := by
  induction paths with
  | nil => rfl
  | cons p rest ih =>
      cases hst : statFile fs p with
      | some im =>
          rw [List.find?_cons_of_pos _ (by simp [hst])]
          simp [determine_target_size, hst]
      | none =>
          rw [List.find?_cons_of_neg _ (by simp [hst])]
          rw [← ih]
          simp [determine_target_size, hst]

/-- Once the scan reaches an existing path, everything after it is
irrelevant to the target size. -/
lemma determine_target_size_tail_irrel (fs : FS) (s : String) (src : Img)
    (hst : statFile fs s = some src) :
    ∀ (pre t1 t2 : List String),
      determine_target_size fs (pre ++ s :: t1) =
        determine_target_size fs (pre ++ s :: t2) := by
  intro pre
  induction pre with
  | nil =>
      intro t1 t2
      simp [determine_target_size, hst]
  | cons q qs ih =>
      intro t1 t2
      simp only [List.cons_append, determine_target_size]
      cases hq : statFile fs q with
      | some im => rfl
      | none => exact ih t1 t2

/-- Folding equation for the target size `main` computes. -/
lemma tsz_eq (fs : FS) (args : Args) :
    tsz fs args = determine_target_size fs (candidate_paths args) := rfl

/-- Inversion of a urp-terrain run: `main` succeeds exactly when the four
loads, the composition and the save all succeed, and then the result is
the composed image at the target size, saved at the output path. -/
lemma main_urpTerrain_iff (fs : FS) (args : Args) (res : RunResult)
    (hmode : args.mode = Mode.urpTerrain) :
    main fs args = Except.ok res ↔
      ∃ m ao hgt sm,
        read_grayscale fs args.metallic 0 (some (tsz fs args)) = Except.ok m ∧
        read_grayscale fs args.occlusion 255 (some (tsz fs args)) = Except.ok ao ∧
        read_grayscale fs args.height 128 (some (tsz fs args)) = Except.ok hgt ∧
        resolve_smoothness fs args (tsz fs args) = Except.ok sm ∧
        compose_rgba m ao hgt sm = Except.ok res.image ∧
        save_png res.image args.out = Except.ok res.effects ∧
        res.out_path = args.out ∧ res.size = tsz fs args := by
  obtain ⟨rout, rsize, rimg, reff⟩ := res
  constructor
  · intro h
    simp only [main, packAndSave, ← tsz_eq, hmode] at h
    split at h
    · injection h
    next m h1 =>
    split at h
    · injection h
    next ao h2 =>
    split at h
    · injection h
    next hgt h3 =>
    split at h
    · injection h
    next sm h4 =>
    split at h
    · injection h
    next out_img h5 =>
    split at h
    · injection h
    next effs h6 =>
    injection h with h
    cases h
    exact ⟨m, ao, hgt, sm, h1, h2, h3, h4, h5, h6, rfl, rfl⟩
  · rintro ⟨m, ao, hgt, sm, h1, h2, h3, h4, h5, h6, h7, h8⟩
    simp only at h5 h6 h7 h8
    subst h7
    subst h8
    simp only [main, packAndSave, ← tsz_eq, hmode]
    simp only [h1, h2, h3, h4, h5, h6]

/-- Inversion of an hdrp run, as for urp-terrain with the detail slot in
the third band. -/
lemma main_hdrp_iff (fs : FS) (args : Args) (res : RunResult)
    (hmode : args.mode = Mode.hdrp) :
    main fs args = Except.ok res ↔
      ∃ m ao dtl sm,
        read_grayscale fs args.metallic 0 (some (tsz fs args)) = Except.ok m ∧
        read_grayscale fs args.occlusion 255 (some (tsz fs args)) = Except.ok ao ∧
        read_grayscale fs args.detail 255 (some (tsz fs args)) = Except.ok dtl ∧
        resolve_smoothness fs args (tsz fs args) = Except.ok sm ∧
        compose_rgba m ao dtl sm = Except.ok res.image ∧
        save_png res.image args.out = Except.ok res.effects ∧
        res.out_path = args.out ∧ res.size = tsz fs args := by
  obtain ⟨rout, rsize, rimg, reff⟩ := res
  constructor
  · intro h
    simp only [main, packAndSave, ← tsz_eq, hmode] at h
    split at h
    · injection h
    next m h1 =>
    split at h
    · injection h
    next ao h2 =>
    split at h
    · injection h
    next dtl h3 =>
    split at h
    · injection h
    next sm h4 =>
    split at h
    · injection h
    next out_img h5 =>
    split at h
    · injection h
    next effs h6 =>
    injection h with h
    cases h
    exact ⟨m, ao, dtl, sm, h1, h2, h3, h4, h5, h6, rfl, rfl⟩
  · rintro ⟨m, ao, dtl, sm, h1, h2, h3, h4, h5, h6, h7, h8⟩
    simp only at h5 h6 h7 h8
    subst h7
    subst h8
    simp only [main, packAndSave, ← tsz_eq, hmode]
    simp only [h1, h2, h3, h4, h5, h6]

/-- Inversion of a urp-ra run: the second and third bands are the
constant-zero rasters. -/
lemma main_urpRA_iff (fs : FS) (args : Args) (res : RunResult)
    (hmode : args.mode = Mode.urpRA) :
    main fs args = Except.ok res ↔
      ∃ m sm,
        read_grayscale fs args.metallic 0 (some (tsz fs args)) = Except.ok m ∧
        resolve_smoothness fs args (tsz fs args) = Except.ok sm ∧
        compose_rgba m (Image_new (tsz fs args) 0) (Image_new (tsz fs args) 0) sm =
          Except.ok res.image ∧
        save_png res.image args.out = Except.ok res.effects ∧
        res.out_path = args.out ∧ res.size = tsz fs args := by
  obtain ⟨rout, rsize, rimg, reff⟩ := res
  constructor
  · intro h
    simp only [main, packAndSave, ← tsz_eq, hmode] at h
    split at h
    · injection h
    next m h1 =>
    split at h
    · injection h
    next sm h2 =>
    split at h
    · injection h
    next out_img h3 =>
    split at h
    · injection h
    next effs h4 =>
    injection h with h
    cases h
    exact ⟨m, sm, h1, h2, h3, h4, rfl, rfl⟩
  · rintro ⟨m, sm, h1, h2, h3, h4, h5, h6⟩
    simp only at h3 h4 h5 h6
    subst h5
    subst h6
    simp only [main, packAndSave, ← tsz_eq, hmode]
    simp only [h1, h2, h3, h4]

/-- With neither a smoothness nor a roughness path, the resolver yields
the uniform default-smoothness raster. -/
lemma resolve_smoothness_none {fs : FS} {args : Args} {ts : Nat × Nat}
    (hs : args.smoothness = none) (hr : args.roughness = none) :
    resolve_smoothness fs args ts =
      Except.ok (Image_new ts (default_smoothness_val args.default_smoothness)) := by
  unfold resolve_smoothness
  rw [hs, hr]
  rfl

/-- With no smoothness path but a truthy roughness path, a successful
resolution is the loaded roughness raster, inverted exactly when the
invert flag is set. -/
lemma resolve_smoothness_roughness {fs : FS} {args : Args} {ts : Nat × Nat} {rough : Img}
    (hs : truthy args.smoothness = false) (hr : truthy args.roughness = true)
    (hload : read_grayscale fs args.roughness 0 (some ts) = Except.ok rough) :
    resolve_smoothness fs args ts =
      Except.ok (if args.invert_roughness then invert_l rough else rough) := by
  unfold resolve_smoothness
  rw [hs, hr]
  simp only [Bool.false_eq_true, if_false, if_true, hload]

/-- With no supplied input path at all, the candidate list is empty. -/
lemma candidate_paths_nil {args : Args}
    (hm : args.metallic = none) (ho : args.occlusion = none) (hh : args.height = none)
    (hd : args.detail = none) (hsm : args.smoothness = none) (hr : args.roughness = none) :
    candidate_paths args = [] := by
  unfold candidate_paths
  rw [hm, ho, hh, hd, hsm, hr]
  cases args.mode <;> rfl

/-- Every successful run produces an image whose dimensions are the
invocation's target size, recorded as the run's size. -/
lemma main_ok_image_size {fs : FS} {args : Args} {res : RunResult}
    (h : main fs args = Except.ok res) :
    res.size = tsz fs args ∧
      res.image.width = (tsz fs args).1 ∧ res.image.height = (tsz fs args).2 := by
  cases hmode : args.mode
  case urpTerrain =>
      obtain ⟨m, ao, hgt, sm, h1, h2, h3, h4, h5, h6, h7, h8⟩ :=
        (main_urpTerrain_iff fs args res hmode).mp h
      have hm := read_grayscale_ok_size h1
      have hcomp := compose_rgba_ok_inv h5
      refine ⟨h8, ?_, ?_⟩ <;> rw [hcomp]
      · exact hm.1
      · exact hm.2
  case hdrp =>
      obtain ⟨m, ao, dtl, sm, h1, h2, h3, h4, h5, h6, h7, h8⟩ :=
        (main_hdrp_iff fs args res hmode).mp h
      have hm := read_grayscale_ok_size h1
      have hcomp := compose_rgba_ok_inv h5
      refine ⟨h8, ?_, ?_⟩ <;> rw [hcomp]
      · exact hm.1
      · exact hm.2
  case urpRA =>
      obtain ⟨m, sm, h1, h2, h3, h4, h5, h6⟩ :=
        (main_urpRA_iff fs args res hmode).mp h
      have hm := read_grayscale_ok_size h1
      have hcomp := compose_rgba_ok_inv h3
      refine ⟨h6, ?_, ?_⟩ <;> rw [hcomp]
      · exact hm.1
      · exact hm.2

/-- Modelled from the spec's words for the target-resolution claim: the
(width, height) of the first supplied candidate path that exists on disk,
with candidates in the fixed attribute order, and 1024x1024 when none
exists. This is the claim-side definition, to be compared with the
source-side `determine_target_size` scan. -/
def spec_target_size (fs : FS) (args : Args) : Nat × Nat :=
  match (candidate_paths args).find? (fun p => (statFile fs p).isSome) with
  | some p =>
      match statFile fs p with
      | some im => (im.width, im.height)
      | none => (1024, 1024)
  | none => (1024, 1024)

/-- The pixel-load contribution of one supplied flag: the path itself,
even when it is the empty string (loading the empty string fails the
file-existence check and is fatal). -/
def optLoad : Option String → List String
  | none => []
  | some p => [p]

/-- The path the smoothness resolver opens: the smoothness path when
truthy, else the roughness path when truthy, else nothing. -/
def resolverPaths (args : Args) : List String :=
  if truthy args.smoothness then optLoad args.smoothness
  else if truthy args.roughness then optLoad args.roughness
  else []

/-- The supplied paths a run opens for pixel data, in load order: metallic
always; occlusion, height and detail according to the mode's flags; then
the resolver's path. A truthy roughness path shadowed by a truthy
smoothness path is never opened. -/
def loadList (args : Args) : List String :=
  optLoad args.metallic
    ++ (match args.mode with
        | Mode.urpRA => []
        | _ => optLoad args.occlusion)
    ++ (match args.mode with
        | Mode.urpTerrain => optLoad args.height
        | _ => [])
    ++ (match args.mode with
        | Mode.hdrp => optLoad args.detail
        | _ => [])
    ++ resolverPaths args

/-- A channel load either succeeds, with every path it was given naming a
file, or fails with the FileNotFoundError naming its missing path. -/
lemma read_gray_cases (fs : FS) (o : Option String) (fb : Fin 256) (ts : Nat × Nat) :
    (∃ img, read_grayscale fs o fb (some ts) = Except.ok img ∧
      ∀ p ∈ optLoad o, ∃ src, statFile fs p = some src) ∨
    (∃ p, o = some p ∧ statFile fs p = none ∧
      read_grayscale fs o fb (some ts) = Except.error ("Input image not found: " ++ p)) := by
  cases o with
  | none => exact Or.inl ⟨_, read_grayscale_none fs fb ts, by simp [optLoad]⟩
  | some p =>
      cases hst : statFile fs p with
      | none => exact Or.inr ⟨p, rfl, hst, read_grayscale_missing fs p fb _ hst⟩
      | some src =>
          refine Or.inl ⟨_, read_grayscale_found fs p fb ts src hst, ?_⟩
          intro q hq
          simp only [optLoad, List.mem_singleton] at hq
          subst hq
          exact ⟨src, hst⟩

/-- The smoothness resolver either succeeds, with every path it opened
naming a file, or fails with the FileNotFoundError naming its missing
path. -/
lemma resolve_cases (fs : FS) (args : Args) (ts : Nat × Nat) :
    (∃ sm, resolve_smoothness fs args ts = Except.ok sm ∧
      ∀ p ∈ resolverPaths args, ∃ src, statFile fs p = some src) ∨
    (∃ p, p ∈ resolverPaths args ∧ statFile fs p = none ∧
      resolve_smoothness fs args ts = Except.error ("Input image not found: " ++ p)) := by
  cases hs : truthy args.smoothness with
  | true =>
      rcases read_gray_cases fs args.smoothness
          (default_smoothness_val args.default_smoothness) ts with
        ⟨img, hok, hall⟩ | ⟨p, hpeq, hpnone, herr⟩
      · refine Or.inl ⟨img, ?_, ?_⟩
        · rw [resolve_smoothness_of_truthy hs]
          exact hok
        · intro q hq
          rw [resolverPaths, if_pos hs] at hq
          exact hall q hq
      · refine Or.inr ⟨p, ?_, hpnone, ?_⟩
        · rw [resolverPaths, if_pos hs, hpeq]
          simp [optLoad]
        · rw [resolve_smoothness_of_truthy hs]
          exact herr
  | false =>
      cases hr : truthy args.roughness with
      | true =>
          rcases read_gray_cases fs args.roughness 0 ts with
            ⟨img, hok, hall⟩ | ⟨p, hpeq, hpnone, herr⟩
          · refine Or.inl ⟨_, resolve_smoothness_roughness hs hr hok, ?_⟩
            intro q hq
            rw [resolverPaths, if_neg (by simp [hs]), if_pos hr] at hq
            exact hall q hq
          · refine Or.inr ⟨p, ?_, hpnone, ?_⟩
            · rw [resolverPaths, if_neg (by simp [hs]), if_pos hr, hpeq]
              simp [optLoad]
            · unfold resolve_smoothness
              rw [hs, hr]
              simp only [Bool.false_eq_true, if_false, if_true, herr]
      | false =>
          refine Or.inl
            ⟨Image_new ts (default_smoothness_val args.default_smoothness), ?_, ?_⟩
          · simp [resolve_smoothness, hs, hr]
          · intro q hq
            rw [resolverPaths, if_neg (by simp [hs]), if_neg (by simp [hr])] at hq
            simp at hq

set_option maxRecDepth 8192 in
/-- Helper fact for the inversion involution: subtracting a byte from 255
twice is the identity. -/
lemma invertByte_involution (v : Fin 256) : (255 : Fin 256) - (255 - v) = v := by
  revert v
  decide

/-- C10: channel inversion is an involution: for every 8-bit
single-channel raster c, applying invert_l twice gives back c at every
pixel (and the dimensions), so converting roughness to smoothness and back
by inversion is lossless at 8-bit precision. -/
theorem claim_C10_invert_involution (c : Img) : invert_l (invert_l c) = c := by
  obtain ⟨w, h, pix⟩ := c
  simp only [invert_l, Image_evalFn, ensure_uint8]
  refine congrArg (Img.mk w h) ?_
  funext x y
  exact invertByte_involution (pix x y)

/-- C2: when a roughness path is supplied and no smoothness path is
supplied, the resolved smoothness sample at each pixel equals 255 - v of
the loaded roughness sample v when the invert flag is set, and v unchanged
when it is not. -/
theorem claim_C2_roughness_inversion (fs : FS) (args : Args) (ts : Nat × Nat) (rough : Img)
    (hs : args.smoothness = none)
    (hr : truthy args.roughness = true)
    (hload : read_grayscale fs args.roughness 0 (some ts) = Except.ok rough) :
    ∃ sm, resolve_smoothness fs args ts = Except.ok sm ∧
      ∀ x y, sm.pix x y =
        if args.invert_roughness then 255 - rough.pix x y else rough.pix x y := by
  have hs' : truthy args.smoothness = false := by rw [hs]; rfl
  refine ⟨_, resolve_smoothness_roughness hs' hr hload, ?_⟩
  intro x y
  cases hi : args.invert_roughness with
  | true => simp [hi, invert_l, Image_evalFn, ensure_uint8]
  | false => simp [hi]

/-- Witness for C2 at a concrete 2x2 roughness raster of value 10 with the
invert flag set: the resolved sample is 245 everywhere. -/
theorem claim_C2_roughness_inversion_witness :
    ∃ sm, resolve_smoothness [("r.png", ⟨2, 2, fun _ _ => 10⟩)]
        ⟨Mode.urpRA, none, none, none, none, none, some "r.png", true, mkRat 1 2, "o/x.png"⟩
        (2, 2) = Except.ok sm ∧
      ∀ x y, sm.pix x y = (245 : Fin 256) :=
  claim_C2_roughness_inversion [("r.png", ⟨2, 2, fun _ _ => 10⟩)]
    ⟨Mode.urpRA, none, none, none, none, none, some "r.png", true, mkRat 1 2, "o/x.png"⟩
    (2, 2) ⟨2, 2, fun _ _ => 10⟩ rfl rfl rfl

/-- C7: in urp-ra mode, whatever the inputs, the second and third bands of
the output image are 0 at every pixel. -/
theorem claim_C7_urpRA_gb_zero (fs : FS) (args : Args) (res : RunResult)
    (hmode : args.mode = Mode.urpRA)
    (h : main fs args = Except.ok res) :
    ∀ x y, res.image.g x y = 0 ∧ res.image.b x y = 0 := by
  obtain ⟨m, sm, h1, h2, h3, h4, h5, h6⟩ := (main_urpRA_iff fs args res hmode).mp h
  have hcomp := compose_rgba_ok_inv h3
  intro x y
  rw [hcomp]
  exact ⟨rfl, rfl⟩

/-- Witness for C7 at a concrete urp-ra run with a 4x4 metallic input. -/
theorem claim_C7_urpRA_gb_zero_witness :
    ∃ res, main [("m.png", ⟨4, 4, fun _ _ => 9⟩)]
        ⟨Mode.urpRA, some "m.png", none, none, none, none, none, false, mkRat 1 2, "o/x.png"⟩ =
        Except.ok res ∧ res.image.g 0 0 = 0 ∧ res.image.b 3 3 = 0 := by
  obtain ⟨res, h⟩ :
      ∃ res, main [("m.png", ⟨4, 4, fun _ _ => 9⟩)]
        ⟨Mode.urpRA, some "m.png", none, none, none, none, none, false, mkRat 1 2, "o/x.png"⟩ =
        Except.ok res := ⟨_, rfl⟩
  refine ⟨res, h, ?_, ?_⟩
  · exact (claim_C7_urpRA_gb_zero _ _ res rfl h 0 0).1
  · exact (claim_C7_urpRA_gb_zero _ _ res rfl h 3 3).2

/-- C5: a channel load against the invocation's target size, the
smoothness resolver, and a constant raster at the target size all produce
rasters of exactly the target resolution; a successful run's image has the
target resolution; and composing four rasters of identical resolution
yields one 4-component raster of that resolution whose i-th band is the
i-th input. -/
theorem claim_C5_composition_invariant :
    (∀ (fs : FS) (path : Option String) (fb : Fin 256) (ts : Nat × Nat) (img : Img),
        read_grayscale fs path fb (some ts) = Except.ok img →
        img.width = ts.1 ∧ img.height = ts.2) ∧
    (∀ (fs : FS) (args : Args) (ts : Nat × Nat) (img : Img),
        resolve_smoothness fs args ts = Except.ok img →
        img.width = ts.1 ∧ img.height = ts.2) ∧
    (∀ (ts : Nat × Nat) (c : Fin 256),
        (Image_new ts c).width = ts.1 ∧ (Image_new ts c).height = ts.2) ∧
    (∀ (fs : FS) (args : Args) (res : RunResult),
        main fs args = Except.ok res →
        res.image.width = (tsz fs args).1 ∧ res.image.height = (tsz fs args).2) ∧
    (∀ r g b a : Img,
        r.width = g.width → r.width = b.width → r.width = a.width →
        r.height = g.height → r.height = b.height → r.height = a.height →
        compose_rgba r g b a =
          Except.ok ⟨r.width, r.height, r.pix, g.pix, b.pix, a.pix⟩) := by
  refine ⟨?_, ?_, ?_, ?_, ?_⟩
  · intro fs path fb ts img h
    exact read_grayscale_ok_size h
  · intro fs args ts img h
    exact resolve_smoothness_ok_size h
  · intro ts c
    exact ⟨rfl, rfl⟩
  · intro fs args res h
    exact (main_ok_image_size h).2
  · intro r g b a hwg hwb hwa hhg hhb hha
    exact compose_rgba_of_sizes hwg hwb hwa hhg hhb hha

/-- Witness for C5: a no-path load at target 3x4 has size 3x4, and a
concrete composition of four 2x2 rasters interleaves them. -/
theorem claim_C5_composition_invariant_witness :
    ((Image_new (3, 4) 0).width = 3 ∧ (Image_new (3, 4) 0).height = 4) ∧
    compose_rgba ⟨2, 2, fun _ _ => 1⟩ ⟨2, 2, fun _ _ => 2⟩ ⟨2, 2, fun _ _ => 3⟩
        ⟨2, 2, fun _ _ => 4⟩ =
      Except.ok ⟨2, 2, fun _ _ => 1, fun _ _ => 2, fun _ _ => 3, fun _ _ => 4⟩ :=
  ⟨claim_C5_composition_invariant.1 [] none 0 (3, 4) (Image_new (3, 4) 0) rfl,
    claim_C5_composition_invariant.2.2.2.2 ⟨2, 2, fun _ _ => 1⟩ ⟨2, 2, fun _ _ => 2⟩
      ⟨2, 2, fun _ _ => 3⟩ ⟨2, 2, fun _ _ => 4⟩ rfl rfl rfl rfl rfl rfl⟩

/-- C4: with no channel input path supplied at all, a successful run has
resolution 1024x1024 and every band is uniform at its documented fallback
constant; the A band is uniform at round(clamp01(default_smoothness)*255),
so 128 for the default smoothness one half; the R/G/B fallbacks are
0/255/128 for urp-terrain, 0/255/255 for hdrp, and 0/0/0 for urp-ra. -/
theorem claim_C4_defaults (fs : FS) (args : Args) (res : RunResult)
    (hm : args.metallic = none) (ho : args.occlusion = none) (hh : args.height = none)
    (hd : args.detail = none) (hsm : args.smoothness = none) (hr : args.roughness = none)
    (h : main fs args = Except.ok res) :
    res.size = (1024, 1024) ∧
    (∀ x y, res.image.a x y = default_smoothness_val args.default_smoothness) ∧
    (args.default_smoothness = mkRat 1 2 → ∀ x y, res.image.a x y = 128) ∧
    (args.mode = Mode.urpTerrain →
      ∀ x y, res.image.r x y = 0 ∧ res.image.g x y = 255 ∧ res.image.b x y = 128) ∧
    (args.mode = Mode.hdrp →
      ∀ x y, res.image.r x y = 0 ∧ res.image.g x y = 255 ∧ res.image.b x y = 255) ∧
    (args.mode = Mode.urpRA →
      ∀ x y, res.image.r x y = 0 ∧ res.image.g x y = 0 ∧ res.image.b x y = 0) := by
  have htsz : tsz fs args = (1024, 1024) := by
    rw [tsz_eq, candidate_paths_nil hm ho hh hd hsm hr]
    rfl
  cases hmode : args.mode
  case urpTerrain =>
      obtain ⟨m, ao, hgt, sm, h1, h2, h3, h4, h5, h6, h7, h8⟩ :=
        (main_urpTerrain_iff fs args res hmode).mp h
      rw [hm, read_grayscale_none] at h1
      rw [ho, read_grayscale_none] at h2
      rw [hh, read_grayscale_none] at h3
      rw [resolve_smoothness_none hsm hr] at h4
      injection h1 with h1
      injection h2 with h2
      injection h3 with h3
      injection h4 with h4
      subst h1 h2 h3 h4
      have hcomp := compose_rgba_ok_inv h5
      refine ⟨by rw [h8, htsz], ?_, ?_, ?_, ?_, ?_⟩
      · intro x y
        rw [hcomp]
        rfl
      · intro hdflt x y
        rw [hcomp]
        show default_smoothness_val args.default_smoothness = 128
        rw [hdflt]
        rfl
      · intro _ x y
        rw [hcomp]
        exact ⟨rfl, rfl, rfl⟩
      · intro heq
        exact absurd heq (by decide)
      · intro heq
        exact absurd heq (by decide)
  case hdrp =>
      obtain ⟨m, ao, dtl, sm, h1, h2, h3, h4, h5, h6, h7, h8⟩ :=
        (main_hdrp_iff fs args res hmode).mp h
      rw [hm, read_grayscale_none] at h1
      rw [ho, read_grayscale_none] at h2
      rw [hd, read_grayscale_none] at h3
      rw [resolve_smoothness_none hsm hr] at h4
      injection h1 with h1
      injection h2 with h2
      injection h3 with h3
      injection h4 with h4
      subst h1 h2 h3 h4
      have hcomp := compose_rgba_ok_inv h5
      refine ⟨by rw [h8, htsz], ?_, ?_, ?_, ?_, ?_⟩
      · intro x y
        rw [hcomp]
        rfl
      · intro hdflt x y
        rw [hcomp]
        show default_smoothness_val args.default_smoothness = 128
        rw [hdflt]
        rfl
      · intro heq
        exact absurd heq (by decide)
      · intro _ x y
        rw [hcomp]
        exact ⟨rfl, rfl, rfl⟩
      · intro heq
        exact absurd heq (by decide)
  case urpRA =>
      obtain ⟨m, sm, h1, h2, h3, h4, h5, h6⟩ :=
        (main_urpRA_iff fs args res hmode).mp h
      rw [hm, read_grayscale_none] at h1
      rw [resolve_smoothness_none hsm hr] at h2
      injection h1 with h1
      injection h2 with h2
      subst h1 h2
      have hcomp := compose_rgba_ok_inv h3
      refine ⟨by rw [h6, htsz], ?_, ?_, ?_, ?_, ?_⟩
      · intro x y
        rw [hcomp]
        rfl
      · intro hdflt x y
        rw [hcomp]
        show default_smoothness_val args.default_smoothness = 128
        rw [hdflt]
        rfl
      · intro heq
        exact absurd heq (by decide)
      · intro heq
        exact absurd heq (by decide)
      · intro _ x y
        rw [hcomp]
        exact ⟨rfl, rfl, rfl⟩

/-- Witness for C4 at a concrete all-defaults urp-terrain run. -/
theorem claim_C4_defaults_witness :
    ∃ res, main []
        ⟨Mode.urpTerrain, none, none, none, none, none, none, false, mkRat 1 2, "o/x.png"⟩ =
        Except.ok res ∧ res.size = (1024, 1024) ∧ res.image.a 0 0 = 128 := by
  obtain ⟨res, h⟩ :
      ∃ res, main []
        ⟨Mode.urpTerrain, none, none, none, none, none, none, false, mkRat 1 2, "o/x.png"⟩ =
        Except.ok res := ⟨_, rfl⟩
  have hc := claim_C4_defaults _ _ res rfl rfl rfl rfl rfl rfl h
  exact ⟨res, h, hc.1, hc.2.2.1 rfl 0 0⟩

/-- C3: the target resolution the run uses equals the dimensions of the
first supplied candidate path (fixed attribute order metallic, occlusion,
height, detail, smoothness, roughness) that exists, with 1024x1024 when
none exists; an existing input whose dimensions differ from the target is
resampled (bicubic) to the target, whose dimensions the resample takes;
and a successful run's recorded size and image dimensions equal that
target. -/
theorem claim_C3_target_resolution :
    (∀ (fs : FS) (args : Args), tsz fs args = spec_target_size fs args) ∧
    (∀ (fs : FS) (p : String) (src : Img) (fb : Fin 256) (ts : Nat × Nat),
        statFile fs p = some src →
        ¬(src.width = ts.1 ∧ src.height = ts.2) →
        read_grayscale fs (some p) fb (some ts) = Except.ok (Image_resizeTo src ts)) ∧
    (∀ (img : Img) (ts : Nat × Nat),
        (Image_resizeTo img ts).width = ts.1 ∧ (Image_resizeTo img ts).height = ts.2) ∧
    (∀ (fs : FS) (args : Args) (res : RunResult),
        main fs args = Except.ok res →
        res.size = spec_target_size fs args ∧
        res.image.width = (spec_target_size fs args).1 ∧
        res.image.height = (spec_target_size fs args).2) := by
  have hspec : ∀ (fs : FS) (args : Args), tsz fs args = spec_target_size fs args := by
    intro fs args
    rw [tsz_eq, determine_target_size_spec]
    rfl
  refine ⟨hspec, ?_, ?_, ?_⟩
  · intro fs p src fb ts hst hne
    have hcond : ¬((src.width == ts.1 && src.height == ts.2) = true) := by
      intro hc
      have hpair := (Bool.and_eq_true _ _).mp hc
      exact hne ⟨beq_iff_eq.mp hpair.1, beq_iff_eq.mp hpair.2⟩
    rw [read_grayscale_found fs p fb ts src hst, if_neg hcond]
  · intro img ts
    exact ⟨rfl, rfl⟩
  · intro fs args res h
    have hsz := main_ok_image_size h
    rw [hspec fs args] at hsz
    exact hsz

/-- Witness for C3 at a concrete run whose only input is a 4x4 metallic
image: the target and output resolution are 4x4. -/
theorem claim_C3_target_resolution_witness :
    ∃ res, main [("m.png", ⟨4, 4, fun _ _ => 7⟩)]
        ⟨Mode.urpTerrain, some "m.png", none, none, none, none, none, false, mkRat 1 2,
          "o/x.png"⟩ = Except.ok res ∧
      res.size = spec_target_size [("m.png", ⟨4, 4, fun _ _ => 7⟩)]
        ⟨Mode.urpTerrain, some "m.png", none, none, none, none, none, false, mkRat 1 2,
          "o/x.png"⟩ ∧
      spec_target_size [("m.png", ⟨4, 4, fun _ _ => 7⟩)]
        ⟨Mode.urpTerrain, some "m.png", none, none, none, none, none, false, mkRat 1 2,
          "o/x.png"⟩ = (4, 4) := by
  obtain ⟨res, h⟩ :
      ∃ res, main [("m.png", ⟨4, 4, fun _ _ => 7⟩)]
        ⟨Mode.urpTerrain, some "m.png", none, none, none, none, none, false, mkRat 1 2,
          "o/x.png"⟩ = Except.ok res := ⟨_, rfl⟩
  exact ⟨res, h, (claim_C3_target_resolution.2.2.2 _ _ res h).1, rfl⟩

/-- C1: in any mode, when a (truthy) smoothness path is supplied, a
successful run is reproduced unchanged with the roughness path and the
invert flag replaced by anything, and the A band's samples equal the
loaded smoothness raster's samples: the 4th channel derives only from the
smoothness image. -/
theorem claim_C1_smoothness_priority (fs : FS) (args : Args) (r' : Option String) (i' : Bool)
    (res : RunResult)
    (hs : truthy args.smoothness = true)
    (h : main fs args = Except.ok res) :
    main fs (withRI args r' i') = Except.ok res ∧
    ∃ img, read_grayscale fs args.smoothness
        (default_smoothness_val args.default_smoothness) (some res.size) = Except.ok img ∧
      ∀ x y, res.image.a x y = img.pix x y := by
  obtain ⟨s, hsome, hsne⟩ := (truthy_iff args.smoothness).mp hs
  cases hmode : args.mode
  case urpTerrain =>
      obtain ⟨m, ao, hgt, sm, h1, h2, h3, h4, h5, h6, h7, h8⟩ :=
        (main_urpTerrain_iff fs args res hmode).mp h
      rw [resolve_smoothness_of_truthy hs] at h4
      have h4' := h4
      rw [hsome] at h4'
      obtain ⟨src, hsrc⟩ := read_grayscale_ok_exists h4'
      have htsz : tsz fs (withRI args r' i') = tsz fs args := by
        rw [tsz_eq, tsz_eq, candidate_paths_withRI, candidate_paths_decomp,
          optPath_of_truthy hsome hsne]
        simp only [List.append_assoc, List.singleton_append]
        exact determine_target_size_tail_irrel fs s src hsrc (basePaths args)
          (optPath r') (optPath args.roughness)
      refine ⟨?_, sm, ?_, ?_⟩
      · exact (main_urpTerrain_iff fs (withRI args r' i') res hmode).mpr
          ⟨m, ao, hgt, sm, by rw [htsz]; exact h1, by rw [htsz]; exact h2,
            by rw [htsz]; exact h3,
            by
              rw [htsz, @resolve_smoothness_of_truthy fs (withRI args r' i') (tsz fs args) hs]
              exact h4,
            h5, h6, h7, by rw [htsz]; exact h8⟩
      · rw [h8]
        exact h4
      · intro x y
        rw [compose_rgba_ok_inv h5]
  case hdrp =>
      obtain ⟨m, ao, dtl, sm, h1, h2, h3, h4, h5, h6, h7, h8⟩ :=
        (main_hdrp_iff fs args res hmode).mp h
      rw [resolve_smoothness_of_truthy hs] at h4
      have h4' := h4
      rw [hsome] at h4'
      obtain ⟨src, hsrc⟩ := read_grayscale_ok_exists h4'
      have htsz : tsz fs (withRI args r' i') = tsz fs args := by
        rw [tsz_eq, tsz_eq, candidate_paths_withRI, candidate_paths_decomp,
          optPath_of_truthy hsome hsne]
        simp only [List.append_assoc, List.singleton_append]
        exact determine_target_size_tail_irrel fs s src hsrc (basePaths args)
          (optPath r') (optPath args.roughness)
      refine ⟨?_, sm, ?_, ?_⟩
      · exact (main_hdrp_iff fs (withRI args r' i') res hmode).mpr
          ⟨m, ao, dtl, sm, by rw [htsz]; exact h1, by rw [htsz]; exact h2,
            by rw [htsz]; exact h3,
            by
              rw [htsz, @resolve_smoothness_of_truthy fs (withRI args r' i') (tsz fs args) hs]
              exact h4,
            h5, h6, h7, by rw [htsz]; exact h8⟩
      · rw [h8]
        exact h4
      · intro x y
        rw [compose_rgba_ok_inv h5]
  case urpRA =>
      obtain ⟨m, sm, h1, h2, h3, h4, h5, h6⟩ :=
        (main_urpRA_iff fs args res hmode).mp h
      rw [resolve_smoothness_of_truthy hs] at h2
      have h2' := h2
      rw [hsome] at h2'
      obtain ⟨src, hsrc⟩ := read_grayscale_ok_exists h2'
      have htsz : tsz fs (withRI args r' i') = tsz fs args := by
        rw [tsz_eq, tsz_eq, candidate_paths_withRI, candidate_paths_decomp,
          optPath_of_truthy hsome hsne]
        simp only [List.append_assoc, List.singleton_append]
        exact determine_target_size_tail_irrel fs s src hsrc (basePaths args)
          (optPath r') (optPath args.roughness)
      refine ⟨?_, sm, ?_, ?_⟩
      · exact (main_urpRA_iff fs (withRI args r' i') res hmode).mpr
          ⟨m, sm, by rw [htsz]; exact h1,
            by
              rw [htsz, @resolve_smoothness_of_truthy fs (withRI args r' i') (tsz fs args) hs]
              exact h2,
            by rw [htsz]; exact h3, h4, h5, by rw [htsz]; exact h6⟩
      · rw [h6]
        exact h2
      · intro x y
        rw [compose_rgba_ok_inv h3]

/-- Witness for C1 at a concrete urp-ra run with an existing 4x4
smoothness file and a roughness path replaced by a missing file with the
invert flag flipped: the run result is unchanged. -/
theorem claim_C1_smoothness_priority_witness :
    ∃ res, main [("s.png", ⟨4, 4, fun _ _ => 200⟩)]
        ⟨Mode.urpRA, none, none, none, none, some "s.png", some "r.png", false, mkRat 1 2,
          "o/x.png"⟩ = Except.ok res ∧
      main [("s.png", ⟨4, 4, fun _ _ => 200⟩)]
        (withRI ⟨Mode.urpRA, none, none, none, none, some "s.png", some "r.png", false,
          mkRat 1 2, "o/x.png"⟩ (some "missing.png") true) = Except.ok res := by
  obtain ⟨res, h⟩ :
      ∃ res, main [("s.png", ⟨4, 4, fun _ _ => 200⟩)]
        ⟨Mode.urpRA, none, none, none, none, some "s.png", some "r.png", false, mkRat 1 2,
          "o/x.png"⟩ = Except.ok res := ⟨_, rfl⟩
  exact ⟨res, h,
    (claim_C1_smoothness_priority [("s.png", ⟨4, 4, fun _ _ => 200⟩)]
      ⟨Mode.urpRA, none, none, none, none, some "s.png", some "r.png", false, mkRat 1 2,
        "o/x.png"⟩ (some "missing.png") true res rfl h).1⟩

/-- C9 (amended): every successful run has an output path whose parent
directory part is nonempty, and its effects are exactly the creation of
the missing parent directories followed by the write of the composited
4-component RGBA raster (the written value is of the 4-band type in every
mode, urp-ra included); an output path without a directory part instead
makes the save step fail before anything is written. -/
theorem claim_C9_writer (fs : FS) (args : Args) (res : RunResult)
    (h : main fs args = Except.ok res) :
    dirname args.out ≠ "" ∧
    res.effects =
      [Effect.makedirs (dirname args.out), Effect.writePNG args.out res.image] := by
  cases hmode : args.mode
  case urpTerrain =>
      obtain ⟨m, ao, hgt, sm, h1, h2, h3, h4, h5, h6, h7, h8⟩ :=
        (main_urpTerrain_iff fs args res hmode).mp h
      exact save_png_ok_inv h6
  case hdrp =>
      obtain ⟨m, ao, dtl, sm, h1, h2, h3, h4, h5, h6, h7, h8⟩ :=
        (main_hdrp_iff fs args res hmode).mp h
      exact save_png_ok_inv h6
  case urpRA =>
      obtain ⟨m, sm, h1, h2, h3, h4, h5, h6⟩ :=
        (main_urpRA_iff fs args res hmode).mp h
      exact save_png_ok_inv h4

/-- Counterexample to C9 as stated: for the output path "x.png", which has
no parent directory component, the claim requires the writer to create
nothing and then write the PNG, but the run fails in the save step
(os.makedirs on the empty dirname raises FileNotFoundError) and writes
nothing. -/
theorem claim_C9_writer_counterexample :
    main [] ⟨Mode.urpTerrain, none, none, none, none, none, none, false, mkRat 1 2, "x.png"⟩ =
      Except.error "FileNotFoundError: [Errno 2] No such file or directory: " := rfl

/-- Witness for C9 at a concrete run writing to o/x.png. -/
theorem claim_C9_writer_witness :
    ∃ res, main []
        ⟨Mode.urpTerrain, none, none, none, none, none, none, false, mkRat 1 2, "o/x.png"⟩ =
        Except.ok res ∧
      dirname "o/x.png" ≠ "" ∧
      res.effects =
        [Effect.makedirs (dirname "o/x.png"), Effect.writePNG "o/x.png" res.image] := by
  obtain ⟨res, h⟩ :
      ∃ res, main []
        ⟨Mode.urpTerrain, none, none, none, none, none, none, false, mkRat 1 2, "o/x.png"⟩ =
        Except.ok res := ⟨_, rfl⟩
  have hc := claim_C9_writer _ _ res h
  exact ⟨res, h, hc.1, hc.2⟩

/-- A path both existing and missing is absurd. -/
lemma statFile_not_none {fs : FS} {p : String}
    (h1 : ∃ src, statFile fs p = some src) (h2 : statFile fs p = none) : False := by
  obtain ⟨src, hsrc⟩ := h1
  rw [h2] at hsrc
  injection hsrc

/-- A successful resolution through the roughness branch implies the
roughness path names a file. -/
lemma resolve_smoothness_ok_roughness_exists {fs : FS} {args : Args} {ts : Nat × Nat}
    {sm : Img}
    (hsf : truthy args.smoothness = false) (hrt : truthy args.roughness = true)
    (h : resolve_smoothness fs args ts = Except.ok sm) :
    ∀ p, args.roughness = some p → ∃ src, statFile fs p = some src := by
  intro p hp
  rcases read_gray_cases fs args.roughness 0 ts with ⟨img, hok, hall⟩ | ⟨q, hqeq, hqnone, herr⟩
  · refine hall p ?_
    rw [hp]
    simp [optLoad]
  · exfalso
    unfold resolve_smoothness at h
    rw [hsf, hrt] at h
    simp only [Bool.false_eq_true, if_false, if_true, herr] at h
    injection h

/-- C8 (amended): in a successful run, every supplied path the run loads
names an existing file — the metallic, occlusion, height and detail paths
whenever supplied (an empty string included, since it never resolves), the
smoothness path when truthy, and the roughness path when truthy and not
shadowed by a truthy smoothness path. Fallback constants are therefore
substituted only for channels whose path was never supplied, or whose
smoothness/roughness slot holds the empty string, which the resolver
treats as absent. -/
theorem claim_C8_no_fallback_for_supplied (fs : FS) (args : Args) (res : RunResult)
    (h : main fs args = Except.ok res) :
    (∀ p, args.metallic = some p → ∃ src, statFile fs p = some src) ∧
    (args.mode ≠ Mode.urpRA →
      ∀ p, args.occlusion = some p → ∃ src, statFile fs p = some src) ∧
    (args.mode = Mode.urpTerrain →
      ∀ p, args.height = some p → ∃ src, statFile fs p = some src) ∧
    (args.mode = Mode.hdrp →
      ∀ p, args.detail = some p → ∃ src, statFile fs p = some src) ∧
    (truthy args.smoothness = true →
      ∀ p, args.smoothness = some p → ∃ src, statFile fs p = some src) ∧
    (truthy args.smoothness = false → truthy args.roughness = true →
      ∀ p, args.roughness = some p → ∃ src, statFile fs p = some src) := by
  cases hmode : args.mode
  case urpTerrain =>
      obtain ⟨m, ao, hgt, sm, h1, h2, h3, h4, h5, h6, h7, h8⟩ :=
        (main_urpTerrain_iff fs args res hmode).mp h
      refine ⟨?_, ?_, ?_, ?_, ?_, ?_⟩
      · intro p hp
        rw [hp] at h1
        exact read_grayscale_ok_exists h1
      · intro _ p hp
        rw [hp] at h2
        exact read_grayscale_ok_exists h2
      · intro _ p hp
        rw [hp] at h3
        exact read_grayscale_ok_exists h3
      · intro heq
        exact absurd heq (by decide)
      · intro hst p hp
        rw [resolve_smoothness_of_truthy hst, hp] at h4
        exact read_grayscale_ok_exists h4
      · intro hsf hrt
        exact resolve_smoothness_ok_roughness_exists hsf hrt h4
  case hdrp =>
      obtain ⟨m, ao, dtl, sm, h1, h2, h3, h4, h5, h6, h7, h8⟩ :=
        (main_hdrp_iff fs args res hmode).mp h
      refine ⟨?_, ?_, ?_, ?_, ?_, ?_⟩
      · intro p hp
        rw [hp] at h1
        exact read_grayscale_ok_exists h1
      · intro _ p hp
        rw [hp] at h2
        exact read_grayscale_ok_exists h2
      · intro heq
        exact absurd heq (by decide)
      · intro _ p hp
        rw [hp] at h3
        exact read_grayscale_ok_exists h3
      · intro hst p hp
        rw [resolve_smoothness_of_truthy hst, hp] at h4
        exact read_grayscale_ok_exists h4
      · intro hsf hrt
        exact resolve_smoothness_ok_roughness_exists hsf hrt h4
  case urpRA =>
      obtain ⟨m, sm, h1, h2, h3, h4, h5, h6⟩ :=
        (main_urpRA_iff fs args res hmode).mp h
      refine ⟨?_, ?_, ?_, ?_, ?_, ?_⟩
      · intro p hp
        rw [hp] at h1
        exact read_grayscale_ok_exists h1
      · intro hne
        exact absurd rfl hne
      · intro heq
        exact absurd heq (by decide)
      · intro heq
        exact absurd heq (by decide)
      · intro hst p hp
        rw [resolve_smoothness_of_truthy hst, hp] at h2
        exact read_grayscale_ok_exists h2
      · intro hsf hrt
        exact resolve_smoothness_ok_roughness_exists hsf hrt h2

/-- Counterexample to C8 as stated: the smoothness path is supplied as the
empty string, which does not resolve to an existing file, yet the run
succeeds with the A band at the fallback constant 128 instead of failing. -/
theorem claim_C8_counterexample :
    ∃ res, main []
        ⟨Mode.urpRA, none, none, none, none, some "", none, false, mkRat 1 2, "o/x.png"⟩ =
        Except.ok res ∧ res.image.a 0 0 = 128 :=
  ⟨_, rfl, rfl⟩

/-- Witness for C8 at a concrete successful urp-ra run with a supplied
metallic path, which therefore names an existing file. -/
theorem claim_C8_no_fallback_for_supplied_witness :
    ∃ res, main [("m.png", ⟨4, 4, fun _ _ => 9⟩)]
        ⟨Mode.urpRA, some "m.png", none, none, none, none, none, false, mkRat 1 2,
          "o/x.png"⟩ = Except.ok res ∧
      ∃ src, statFile [("m.png", ⟨4, 4, fun _ _ => 9⟩)] "m.png" = some src := by
  obtain ⟨res, h⟩ :
      ∃ res, main [("m.png", ⟨4, 4, fun _ _ => 9⟩)]
        ⟨Mode.urpRA, some "m.png", none, none, none, none, none, false, mkRat 1 2,
          "o/x.png"⟩ = Except.ok res := ⟨_, rfl⟩
  exact ⟨res, h, (claim_C8_no_fallback_for_supplied _ _ res h).1 "m.png" rfl⟩

/-- C6 (amended): when some supplied path among those the run actually
loads is missing — metallic always; occlusion, height and detail per the
mode's flags; the truthy smoothness path; and the truthy roughness path
only when no truthy smoothness path shadows it — the run aborts with the
FileNotFoundError naming a missing loaded path (the nonzero-exit model),
so composition never happens and no output effect is produced. -/
theorem claim_C6_missing_input (fs : FS) (args : Args)
    (hmiss : ∃ p, p ∈ loadList args ∧ statFile fs p = none) :
    ∃ q, q ∈ loadList args ∧ statFile fs q = none ∧
      main fs args = Except.error ("Input image not found: " ++ q) := by
  cases hmode : args.mode
  case urpTerrain =>
      rcases read_gray_cases fs args.metallic 0 (tsz fs args) with
        ⟨m, hm, hmall⟩ | ⟨p, hpeq, hpnone, herr⟩
      · rcases read_gray_cases fs args.occlusion 255 (tsz fs args) with
          ⟨ao, hao, haoall⟩ | ⟨p, hpeq, hpnone, herr⟩
        · rcases read_gray_cases fs args.height 128 (tsz fs args) with
            ⟨hgt, hh, hhall⟩ | ⟨p, hpeq, hpnone, herr⟩
          · rcases resolve_cases fs args (tsz fs args) with
              ⟨sm, hsm, hsmall⟩ | ⟨p, hpmem, hpnone, herr⟩
            · exfalso
              obtain ⟨p0, hp0, hp0none⟩ := hmiss
              simp only [loadList, hmode, List.mem_append, List.not_mem_nil,
                or_false] at hp0
              rcases hp0 with ((h | h) | h) | h
              · exact statFile_not_none (hmall p0 h) hp0none
              · exact statFile_not_none (haoall p0 h) hp0none
              · exact statFile_not_none (hhall p0 h) hp0none
              · exact statFile_not_none (hsmall p0 h) hp0none
            · refine ⟨p, ?_, hpnone, ?_⟩
              · simp only [loadList, hmode, List.mem_append]
                exact Or.inr hpmem
              · simp only [main, ← tsz_eq, hmode, hm, hao, hh, herr]
          · refine ⟨p, ?_, hpnone, ?_⟩
            · simp [loadList, hmode, hpeq, optLoad]
            · simp only [main, ← tsz_eq, hmode, hm, hao, herr]
        · refine ⟨p, ?_, hpnone, ?_⟩
          · simp [loadList, hmode, hpeq, optLoad]
          · simp only [main, ← tsz_eq, hmode, hm, herr]
      · refine ⟨p, ?_, hpnone, ?_⟩
        · simp [loadList, hmode, hpeq, optLoad]
        · simp only [main, ← tsz_eq, hmode, herr]
  case hdrp =>
      rcases read_gray_cases fs args.metallic 0 (tsz fs args) with
        ⟨m, hm, hmall⟩ | ⟨p, hpeq, hpnone, herr⟩
      · rcases read_gray_cases fs args.occlusion 255 (tsz fs args) with
          ⟨ao, hao, haoall⟩ | ⟨p, hpeq, hpnone, herr⟩
        · rcases read_gray_cases fs args.detail 255 (tsz fs args) with
            ⟨dtl, hdt, hdtall⟩ | ⟨p, hpeq, hpnone, herr⟩
          · rcases resolve_cases fs args (tsz fs args) with
              ⟨sm, hsm, hsmall⟩ | ⟨p, hpmem, hpnone, herr⟩
            · exfalso
              obtain ⟨p0, hp0, hp0none⟩ := hmiss
              simp only [loadList, hmode, List.mem_append, List.not_mem_nil,
                or_false] at hp0
              rcases hp0 with ((h | h) | h) | h
              · exact statFile_not_none (hmall p0 h) hp0none
              · exact statFile_not_none (haoall p0 h) hp0none
              · exact statFile_not_none (hdtall p0 h) hp0none
              · exact statFile_not_none (hsmall p0 h) hp0none
            · refine ⟨p, ?_, hpnone, ?_⟩
              · simp only [loadList, hmode, List.mem_append]
                exact Or.inr hpmem
              · simp only [main, ← tsz_eq, hmode, hm, hao, hdt, herr]
          · refine ⟨p, ?_, hpnone, ?_⟩
            · simp [loadList, hmode, hpeq, optLoad]
            · simp only [main, ← tsz_eq, hmode, hm, hao, herr]
        · refine ⟨p, ?_, hpnone, ?_⟩
          · simp [loadList, hmode, hpeq, optLoad]
          · simp only [main, ← tsz_eq, hmode, hm, herr]
      · refine ⟨p, ?_, hpnone, ?_⟩
        · simp [loadList, hmode, hpeq, optLoad]
        · simp only [main, ← tsz_eq, hmode, herr]
  case urpRA =>
      rcases read_gray_cases fs args.metallic 0 (tsz fs args) with
        ⟨m, hm, hmall⟩ | ⟨p, hpeq, hpnone, herr⟩
      · rcases resolve_cases fs args (tsz fs args) with
          ⟨sm, hsm, hsmall⟩ | ⟨p, hpmem, hpnone, herr⟩
        · exfalso
          obtain ⟨p0, hp0, hp0none⟩ := hmiss
          simp only [loadList, hmode, List.mem_append, List.not_mem_nil,
            or_false] at hp0
          rcases hp0 with h | h
          · exact statFile_not_none (hmall p0 h) hp0none
          · exact statFile_not_none (hsmall p0 h) hp0none
        · refine ⟨p, ?_, hpnone, ?_⟩
          · simp only [loadList, hmode, List.mem_append]
            exact Or.inr hpmem
          · simp only [main, ← tsz_eq, hmode, hm, herr]
      · refine ⟨p, ?_, hpnone, ?_⟩
        · simp [loadList, hmode, hpeq, optLoad]
        · simp only [main, ← tsz_eq, hmode, herr]

/-- Counterexample to C6 as stated: the roughness path is supplied and
names no existing file, but a supplied existing smoothness path shadows
it, so the run succeeds and writes the output instead of failing. -/
theorem claim_C6_counterexample :
    ∃ res, main [("s.png", ⟨4, 4, fun _ _ => 200⟩)]
        ⟨Mode.urpRA, none, none, none, none, some "s.png", some "missing.png", false,
          mkRat 1 2, "o/x.png"⟩ = Except.ok res ∧
      statFile [("s.png", ⟨4, 4, fun _ _ => 200⟩)] "missing.png" = none :=
  ⟨_, rfl, rfl⟩

/-- Witness for C6 at a concrete run whose metallic path is missing. -/
theorem claim_C6_missing_input_witness :
    ∃ q, q ∈ loadList
        ⟨Mode.urpTerrain, some "nope.png", none, none, none, none, none, false, mkRat 1 2,
          "o/x.png"⟩ ∧ statFile [] q = none ∧
      main [] ⟨Mode.urpTerrain, some "nope.png", none, none, none, none, none, false,
        mkRat 1 2, "o/x.png"⟩ = Except.error ("Input image not found: " ++ q) :=
  claim_C6_missing_input []
    ⟨Mode.urpTerrain, some "nope.png", none, none, none, none, none, false, mkRat 1 2,
      "o/x.png"⟩
    ⟨"nope.png", by decide, rfl⟩

end PackMaskmap
